import Mathlib

/-!
Verification of the virtual-DOM core of `make.js` (`src/core/vdom.js`).

The embedding is shallow and executable:

* A JS props object is an association list `Attrs` whose keys are distinct
  (`noDupKeys`); `Object.keys` iterates entries in insertion order.
* `VNode` is the virtual-node model: a plain string (text node) or an
  object `{ type, props, children }` built by `createVDomNode`.
* `DNode` is the live DOM model. Each live node carries a numeric `id`
  standing for its JS object identity: functions that create DOM nodes
  (`document.createElement` / `document.createTextNode`) consume a fresh
  id from a counter that is threaded through explicitly, so "same node
  reference before and after" is expressed as "same `id`".
* DOM mutation is modelled by returning the updated node; attribute
  writes performed by `updateDomAttributes` are reified as a trace of
  `AttrOp`s (so "no redundant write" is observable) which `applyAttrOps`
  replays onto an element's attribute list.
* JS runtime faults (calling `replaceChild` with `undefined`, reading
  `.type` of `undefined`, using element APIs on a text node or on a
  missing first child) are modelled as `Except.error JSErr.typeError`.
-/

/-- Attribute / props mapping: association list in insertion order. -/
abbrev Attrs := List (String × String)

/-- JS property read `obj[k]` / `k in obj`: first binding of `k`, if any. -/
def getProp : Attrs → String → Option String
  | [], _ => none
  | (k, v) :: rest, key => if k = key then some v else getProp rest key

/-- Membership of a key in an attribute list. -/
def keyMem (key : String) : Attrs → Bool
  | [] => false
  | (k, _) :: rest => k == key || keyMem key rest

/-- A JS object has no duplicate keys; this is the well-formedness invariant. -/
def noDupKeys : Attrs → Bool
  | [] => true
  | (k, _) :: rest => !(keyMem k rest) && noDupKeys rest

/-- DOM `element.setAttribute k v`: overwrite in place or append. -/
def setAttr : Attrs → String → String → Attrs
  | [], key, val => [(key, val)]
  | (k, v) :: rest, key, val =>
    if k = key then (key, val) :: rest else (k, v) :: setAttr rest key val

/-- DOM `element.removeAttribute k`. -/
def removeAttr : Attrs → String → Attrs
  | [], _ => []
  | (k, v) :: rest, key =>
    if k = key then removeAttr rest key else (k, v) :: removeAttr rest key

/-- One attribute write performed on a live element. -/
inductive AttrOp where
  | remove (name : String)
  | set (name : String) (value : String)
deriving Repr, DecidableEq

/-- Replay one attribute write on an element's attribute list. -/
def applyAttrOp (a : Attrs) : AttrOp → Attrs
  | .remove k => removeAttr a k
  | .set k v => setAttr a k v

/-- Replay a trace of attribute writes in order. -/
def applyAttrOps (a : Attrs) (ops : List AttrOp) : Attrs :=
  ops.foldl applyAttrOp a

/-- Embeds `updateDomAttributes(domElement, oldProps, newProps)` from
`src/core/vdom.js` as the ordered trace of writes it performs on the element:
first `Object.keys(oldProps).forEach`: remove every key not in `newProps`
(`Object.keys` iterates the entries' keys in insertion order);
then `Object.entries(newProps).forEach`: set every pair whose value is not
already bound to that key in `oldProps` (`oldProps[propName] !== propValue`). -/
def updateDomAttributes (oldProps newProps : Attrs) : List AttrOp :=
  oldProps.filterMap (fun kv =>
    if (getProp newProps kv.1).isSome then none else some (AttrOp.remove kv.1))
  ++ newProps.filterMap (fun kv =>
    if getProp oldProps kv.1 = some kv.2 then none else some (AttrOp.set kv.1 kv.2))

/-- Virtual node: `isTextNode` distinguishes plain strings from element
objects `{ type, props, children }`, so the model is a sum. -/
inductive VNode where
  | text (s : String)
  | elem (type : String) (props : Attrs) (children : List VNode)
deriving Repr

-- Structural equality test for virtual nodes (the model of JS `===` on
-- virtual nodes; see the note on `diffChildren`).
mutual
def vnodeBEq : VNode → VNode → Bool
  | .text s, .text s2 => s == s2
  | .elem t p cs, .elem t2 p2 cs2 => t == t2 && p == p2 && vnodeListBEq cs cs2
  | _, _ => false
def vnodeListBEq : List VNode → List VNode → Bool
  | [], [] => true
  | v :: vs, w :: ws => vnodeBEq v w && vnodeListBEq vs ws
  | _, _ => false
end

instance : BEq VNode := ⟨vnodeBEq⟩

mutual
theorem vnodeBEq_refl : (v : VNode) → vnodeBEq v v = true
  | .text _ => by simp [vnodeBEq]
  | .elem t p cs => by simp [vnodeBEq, vnodeListBEq_refl cs]
theorem vnodeListBEq_refl : (cs : List VNode) → vnodeListBEq cs cs = true
  | [] => by simp [vnodeListBEq]
  | c :: cs => by simp [vnodeListBEq, vnodeBEq_refl c, vnodeListBEq_refl cs]
end

mutual
theorem vnodeBEq_eq : (v w : VNode) → vnodeBEq v w = true → v = w
  | .text _, .text _ => by simp [vnodeBEq]
  | .text _, .elem _ _ _ => by simp [vnodeBEq]
  | .elem _ _ _, .text _ => by simp [vnodeBEq]
  | .elem t p cs, .elem t2 p2 cs2 => by
      simp only [vnodeBEq, Bool.and_eq_true, beq_iff_eq]
      rintro ⟨⟨rfl, rfl⟩, h⟩
      rw [vnodeListBEq_eq cs cs2 h]
theorem vnodeListBEq_eq : (cs ds : List VNode) → vnodeListBEq cs ds = true → cs = ds
  | [], [] => by simp
  | [], _ :: _ => by simp [vnodeListBEq]
  | _ :: _, [] => by simp [vnodeListBEq]
  | c :: cs, d :: ds => by
      simp only [vnodeListBEq, Bool.and_eq_true]
      rintro ⟨h1, h2⟩
      rw [vnodeBEq_eq c d h1, vnodeListBEq_eq cs ds h2]
end

instance : LawfulBEq VNode where
  eq_of_beq h := vnodeBEq_eq _ _ h
  rfl := vnodeBEq_refl _

instance : DecidableEq VNode := fun a b =>
  decidable_of_iff (vnodeBEq a b = true) ⟨vnodeBEq_eq a b, fun h => h ▸ vnodeBEq_refl a⟩

/-- Embeds `isTextNode(vNode)`: `typeof vNode === "string"`. -/
def isTextV : VNode → Bool
  | .text _ => true
  | .elem _ _ _ => false

/-- `isTextNode` on a possibly-absent value: `isTextNode(undefined)` and
`isTextNode(null)` are both `false`. -/
def isTextOpt : Option VNode → Bool
  | none => false
  | some v => isTextV v

/-- Value `document.createTextNode(vNode)` stores: a string is kept as is,
any other object is stringified by JS to `"[object Object]"`. -/
def textValue : VNode → String
  | .text s => s
  | .elem _ _ _ => "[object Object]"

/-- Live DOM node; `id` models JS object identity of the node. -/
inductive DNode where
  | dtext (id : Nat) (s : String)
  | delem (id : Nat) (tag : String) (attrs : Attrs) (children : List DNode)
deriving Repr

mutual
def dnodeBEq : DNode → DNode → Bool
  | .dtext i s, .dtext i2 s2 => i == i2 && s == s2
  | .delem i t a cs, .delem i2 t2 a2 cs2 =>
      i == i2 && t == t2 && a == a2 && dnodeListBEq cs cs2
  | _, _ => false
def dnodeListBEq : List DNode → List DNode → Bool
  | [], [] => true
  | v :: vs, w :: ws => dnodeBEq v w && dnodeListBEq vs ws
  | _, _ => false
end

mutual
theorem dnodeBEq_refl : (v : DNode) → dnodeBEq v v = true
  | .dtext _ _ => by simp [dnodeBEq]
  | .delem i t a cs => by simp [dnodeBEq, dnodeListBEq_refl cs]
theorem dnodeListBEq_refl : (cs : List DNode) → dnodeListBEq cs cs = true
  | [] => by simp [dnodeListBEq]
  | c :: cs => by simp [dnodeListBEq, dnodeBEq_refl c, dnodeListBEq_refl cs]
end

mutual
theorem dnodeBEq_eq : (v w : DNode) → dnodeBEq v w = true → v = w
  | .dtext _ _, .dtext _ _ => by
      simp only [dnodeBEq, Bool.and_eq_true, beq_iff_eq]
      rintro ⟨rfl, rfl⟩
      rfl
  | .dtext _ _, .delem _ _ _ _ => by simp [dnodeBEq]
  | .delem _ _ _ _, .dtext _ _ => by simp [dnodeBEq]
  | .delem i t a cs, .delem i2 t2 a2 cs2 => by
      simp only [dnodeBEq, Bool.and_eq_true, beq_iff_eq]
      rintro ⟨⟨⟨rfl, rfl⟩, rfl⟩, h⟩
      rw [dnodeListBEq_eq cs cs2 h]
theorem dnodeListBEq_eq : (cs ds : List DNode) → dnodeListBEq cs ds = true → cs = ds
  | [], [] => by simp
  | [], _ :: _ => by simp [dnodeListBEq]
  | _ :: _, [] => by simp [dnodeListBEq]
  | c :: cs, d :: ds => by
      simp only [dnodeListBEq, Bool.and_eq_true]
      rintro ⟨h1, h2⟩
      rw [dnodeBEq_eq c d h1, dnodeListBEq_eq cs ds h2]
end

instance : DecidableEq DNode := fun a b =>
  decidable_of_iff (dnodeBEq a b = true) ⟨dnodeBEq_eq a b, fun h => h ▸ dnodeBEq_refl a⟩

/-- JS runtime fault raised by the DOM API (e.g. `replaceChild` called with
`undefined`, property access on `undefined`, element APIs on a text node). -/
inductive JSErr where
  | typeError
deriving Repr, DecidableEq

/-- Raw result of `createVDomNode`: the function builds the object literal
`{ type, props, children }` from its arguments verbatim, so the `props` and
`children` slots hold whatever was passed — `props : Option Attrs` models
that the attributes argument may be absent (`undefined`), and `children`
stays generic because JS passes it through untyped (an array or a string). -/
structure RawVNode (γ : Type) where
  type : String
  props : Option Attrs
  children : γ
deriving Repr, DecidableEq

/-- Embeds `createVDomNode(type, props, children)`:
`return { type, props, children };` — no defaulting, no validation. -/
def createVDomNode (type : String) (props : Option Attrs) (children : γ) :
    RawVNode γ :=
  { type := type, props := props, children := children }

-- Embeds the recursive build performed by `renderVDomToDom`: a text virtual
-- node becomes `document.createTextNode(vNode)`; an element virtual node
-- becomes `document.createElement(vNode.type)` (consuming a fresh id),
-- receives its attributes via `updateDomAttributes(domElement, {}, vNode.props)`,
-- and then each child is mounted in order into the freshly created element
-- (`vNode.children.forEach((child) => renderVDomToDom(child, domElement))`;
-- the recursive target is always the fresh element, which exists and is an
-- element node, so appending never faults inside the build).
mutual
def renderBuild : VNode → Nat → DNode × Nat
  | .text s, n => (.dtext n s, n + 1)
  | .elem t p cs, n =>
    let attrs := applyAttrOps [] (updateDomAttributes [] p)
    let r := renderBuildList cs (n + 1)
    (.delem n t attrs r.1, r.2)
def renderBuildList : List VNode → Nat → List DNode × Nat
  | [], n => ([], n)
  | c :: cs, n =>
    let r := renderBuild c n
    let rs := renderBuildList cs r.2
    (r.1 :: rs.1, rs.2)
end

/-- Embeds `renderVDomToDom(vNode, container)`: build the live subtree, then
`container && container.appendChild(domElement)` — appended only when the
container is present; appending to a text node faults
(`HierarchyRequestError`, modelled as `typeError`). Its JS return value is
`undefined` (no value), which matters to `diffAndUpdate`'s tag-change case. -/
def renderVDomToDom (v : VNode) (container : Option DNode) (ctr : Nat) :
    Except JSErr (Option DNode × Nat) :=
  let r := renderBuild v ctr
  match container with
  | none => .ok (none, r.2)
  | some (.dtext _ _) => .error .typeError
  | some (.delem i t a cs) => .ok (some (.delem i t a (cs ++ [r.1])), r.2)

/-- Embeds `reRenderElement(vNode, parentDomElement)`:
`while (parentDomElement && parentDomElement.firstChild) removeChild(firstChild)`
— removes every child when the parent is present (a text parent has no
`firstChild`, so the loop exits at once) — then `renderVDomToDom(vNode,
parentDomElement)`. -/
def reRenderElement (v : VNode) (parent : Option DNode) (ctr : Nat) :
    Except JSErr (Option DNode × Nat) :=
  let cleared : Option DNode :=
    match parent with
    | none => none
    | some (.dtext i s) => some (.dtext i s)
    | some (.delem i t a _) => some (.delem i t a [])
  renderVDomToDom v cleared ctr

/-- Modelled from the spec: `updateAttributes`, which `diffAndUpdate` calls in
its same-tag case (src/core/vdom.js line 68), is not defined in any file under
`src/` — only its caller is. Spec section 4.4 step 4 says this step is
"apply the attribute diff (section 4.5)", and section 4.5's attribute diff is
exactly the behaviour of `updateDomAttributes`, so the missing function is
modelled as that attribute diff. -/
def updateAttributes (oldProps newProps : Attrs) : List AttrOp :=
  updateDomAttributes oldProps newProps

/-- Embeds `parentDomElement.replaceChild(newDomElement, parentDomElement.firstChild)`:
replaces the first child; faults when the parent is a text node (no such
method) or has no children (`replaceChild(new, null)` is a `TypeError`). -/
def replaceFirstChild (parent : DNode) (newChild : DNode) : Except JSErr DNode :=
  match parent with
  | .dtext _ _ => .error .typeError
  | .delem i t a kids =>
    match kids with
    | [] => .error .typeError
    | _ :: rest => .ok (.delem i t a (newChild :: rest))

-- Embeds `diffAndUpdate(previousVNode, currentVNode, parentDomElement)` for a
-- non-null `currentVNode` (the `currentVNode === null` guard lives in the
-- `diffAndUpdate` wrapper below), together with its children loop.
--
-- Case 1 (either side a text node): `previousVNode !== currentVNode` —
-- strings compare by value; a string never equals an object; two objects
-- compare by reference, modelled as structural equality (`==` via
-- `vnodeBEq`) — if unequal, `createTextNode(currentVNode)` (fresh id) and
-- replace the container's first child; if equal, fall through and return
-- with no mutation.
--
-- Case 2 (both elements, different `type`): `renderVDomToDom(currentVNode)`
-- is called with no container, so it appends nowhere and returns
-- `undefined`; `replaceChild(undefined, firstChild)` then throws a
-- `TypeError`.
--
-- Case 3 (both elements, same `type`): `getDomElementFromVNode` resolves the
-- target as `parentDomElement.firstChild`; `updateAttributes` (see above) is
-- applied to it, then the children loop runs. The resolved first child must
-- be a live element for the element APIs used on it; a text, or missing,
-- first child (and likewise a text parent) faults on its first actual DOM
-- access and is modelled as `typeError` uniformly.
--
-- The remaining `match` case: `previousVNode` absent (`undefined`/`null`)
-- while neither side is a text node — reading `previousVNode.type` throws a
-- `TypeError`. (The text/text combinations of that case are unreachable
-- under the Case-1 guard.)
mutual
def diffAndUpdateV (prev : Option VNode) (c : VNode) (parent : DNode) (ctr : Nat) :
    Except JSErr (DNode × Nat) :=
  if isTextOpt prev || isTextV c then
    if prev == some c then .ok (parent, ctr)
    else
      (replaceFirstChild parent (DNode.dtext ctr (textValue c))).map
        (fun p2 => (p2, ctr + 1))
  else
    match prev, c with
    | some (VNode.elem pt pp pcs), VNode.elem ct cp ccs =>
      if pt == ct then
        match parent with
        | .dtext _ _ => .error .typeError
        | .delem pid ptag pattrs pkids =>
          match pkids with
          | [] => .error .typeError
          | d0 :: rest =>
            match d0 with
            | .dtext _ _ => .error .typeError
            | .delem did dtag dattrs dkids =>
              let d0b := DNode.delem did dtag
                (applyAttrOps dattrs (updateAttributes pp cp)) dkids
              (diffChildren pcs ccs 0 d0b ctr).map
                (fun r => (DNode.delem pid ptag pattrs (r.1 :: rest), r.2))
      else
        .error .typeError
    | _, _ => .error .typeError
-- Embeds `currentVNode.children.forEach((child, index) => { if (child !==
-- previousVNode.children[index]) diffAndUpdate(previousVNode.children[index],
-- child, domElement) })`: `pcs[i]?` is `previousVNode.children[index]`
-- (`none` = `undefined` past the end); each recursive call goes through
-- `diffAndUpdate` with a non-null current child (the children list holds
-- virtual nodes, never `null`), hence directly to `diffAndUpdateV`.
def diffChildren (pcs cs : List VNode) (i : Nat) (dom : DNode) (ctr : Nat) :
    Except JSErr (DNode × Nat) :=
  match cs with
  | [] => .ok (dom, ctr)
  | c :: rest =>
    if pcs[i]? == some c then diffChildren pcs rest (i + 1) dom ctr
    else
      match diffAndUpdateV pcs[i]? c dom ctr with
      | .error e => .error e
      | .ok r => diffChildren pcs rest (i + 1) r.1 r.2
end

/-- Embeds `diffAndUpdate`: the wrapper's first guard `currentVNode === null`
clears the parent (`parentDomElement.innerHTML = ""` empties an element's
children; on a text node the assignment just creates an expando property, a
silent no-op) and returns; otherwise the three diff cases run
(`diffAndUpdateV`). -/
def diffAndUpdate (prev cur : Option VNode) (parent : DNode) (ctr : Nat) :
    Except JSErr (DNode × Nat) :=
  match cur with
  | none =>
    match parent with
    | .dtext i s => .ok (.dtext i s, ctr)
    | .delem i t a _ => .ok (.delem i t a [], ctr)
  | some c => diffAndUpdateV prev c parent ctr

-- Total number of nodes (elements and text nodes) of a virtual tree.
mutual
def vCount : VNode → Nat
  | .text _ => 1
  | .elem _ _ cs => 1 + vCountList cs
def vCountList : List VNode → Nat
  | [] => 0
  | c :: cs => vCount c + vCountList cs
end

-- Total number of live nodes of a DOM subtree.
mutual
def dCount : DNode → Nat
  | .dtext _ _ => 1
  | .delem _ _ _ cs => 1 + dCountList cs
def dCountList : List DNode → Nat
  | [] => 0
  | c :: cs => dCount c + dCountList cs
end

-- A live subtree matches a virtual tree: same shape, with each live node's
-- tag name, text value and attribute list equal to the virtual node's, and
-- children in the same order.
mutual
def matchesB : VNode → DNode → Bool
  | .text s, .dtext _ s2 => s == s2
  | .elem t p cs, .delem _ t2 a ds => t == t2 && p == a && matchesListB cs ds
  | _, _ => false
def matchesListB : List VNode → List DNode → Bool
  | [], [] => true
  | v :: vs, d :: ds => matchesB v d && matchesListB vs ds
  | _, _ => false
end

-- Well-formed virtual tree: every element's props object has distinct keys
-- (a JS object literal cannot bind the same key twice).
mutual
def wfV : VNode → Bool
  | .text _ => true
  | .elem _ p cs => noDupKeys p && wfVList cs
def wfVList : List VNode → Bool
  | [] => true
  | c :: cs => wfV c && wfVList cs
end

-- Erase the identities of a live subtree, leaving only its shape (tags,
-- text values, attributes, child order).
mutual
def stripId : DNode → DNode
  | .dtext _ s => .dtext 0 s
  | .delem _ t a kids => .delem 0 t a (stripIdList kids)
def stripIdList : List DNode → List DNode
  | [] => []
  | d :: ds => stripId d :: stripIdList ds
end

-- The shape `renderBuild` produces for a virtual tree, independent of the
-- identity counter.
mutual
def buildShape : VNode → DNode
  | .text s => .dtext 0 s
  | .elem t p cs => .delem 0 t (applyAttrOps [] (updateDomAttributes [] p)) (buildShapeList cs)
def buildShapeList : List VNode → List DNode
  | [] => []
  | c :: cs => buildShape c :: buildShapeList cs
end

theorem getProp_isSome_iff (a : Attrs) (k : String) :
    (getProp a k).isSome = true ↔ ∃ v, (k, v) ∈ a := by
  induction a with
  | nil => simp [getProp]
  | cons kv rest ih =>
    obtain ⟨k2, v2⟩ := kv
    by_cases h : k2 = k
    · subst h
      simp [getProp]
    · simp only [getProp, if_neg h, ih, List.mem_cons]
      constructor
      · rintro ⟨v, hv⟩
        exact ⟨v, Or.inr hv⟩
      · rintro ⟨v, hv | hv⟩
        · cases hv
          exact absurd rfl h
        · exact ⟨v, hv⟩

theorem getProp_none_iff (a : Attrs) (k : String) :
    getProp a k = none ↔ ∀ v, (k, v) ∉ a := by
  constructor
  · intro h v hv
    have hs : (getProp a k).isSome = true := (getProp_isSome_iff a k).mpr ⟨v, hv⟩
    rw [h] at hs
    simp at hs
  · intro h
    cases hg : getProp a k with
    | none => rfl
    | some v =>
      obtain ⟨v2, hv2⟩ := (getProp_isSome_iff a k).mp (by simp [hg])
      exact absurd hv2 (h v2)

theorem keyMem_eq_false_iff (a : Attrs) (k : String) :
    keyMem k a = false ↔ ∀ kv ∈ a, kv.1 ≠ k := by
  induction a with
  | nil => simp [keyMem]
  | cons kv rest ih =>
    simp [keyMem, ih, Bool.or_eq_false_iff]

theorem keyMem_append (a b : Attrs) (k : String) :
    keyMem k (a ++ b) = (keyMem k a || keyMem k b) := by
  induction a with
  | nil => simp [keyMem]
  | cons kv rest ih => simp [keyMem, ih, Bool.or_assoc]

theorem setAttr_fresh (a : Attrs) (k v : String) (h : keyMem k a = false) :
    setAttr a k v = a ++ [(k, v)] := by
  induction a with
  | nil => simp [setAttr]
  | cons kv rest ih =>
    simp only [keyMem, Bool.or_eq_false_iff, beq_eq_false_iff_ne] at h
    simp [setAttr, if_neg h.1, ih h.2]

theorem applyAttrOps_sets_fresh (p : Attrs) :
    ∀ (acc : Attrs), noDupKeys p = true → (∀ kv ∈ p, keyMem kv.1 acc = false) →
    applyAttrOps acc (p.map (fun kv => AttrOp.set kv.1 kv.2)) = acc ++ p := by
  induction p with
  | nil => intro acc _ _; simp [applyAttrOps]
  | cons kv rest ih =>
    intro acc hnd hfresh
    obtain ⟨k, v⟩ := kv
    simp only [noDupKeys, Bool.and_eq_true] at hnd
    have hka : keyMem k acc = false := hfresh (k, v) (List.mem_cons_self _ _)
    simp only [List.map_cons, applyAttrOps, List.foldl_cons, applyAttrOp,
      setAttr_fresh acc k v hka]
    have hfresh2 : ∀ kv2 ∈ rest, keyMem kv2.1 (acc ++ [(k, v)]) = false := by
      intro kv2 hkv2
      rw [keyMem_append, Bool.or_eq_false_iff]
      refine ⟨hfresh kv2 (List.mem_cons_of_mem _ hkv2), ?_⟩
      have hk2 : kv2.1 ≠ k := by
        have := (keyMem_eq_false_iff rest k).mp (by simpa using hnd.1)
        exact this kv2 hkv2
      simp [keyMem, Ne.symm hk2]
    have := ih (acc ++ [(k, v)]) hnd.2 hfresh2
    simp only [applyAttrOps] at this
    simp [this]

theorem updateDomAttributes_empty_old (p : Attrs) :
    updateDomAttributes [] p = p.map (fun kv => AttrOp.set kv.1 kv.2) := by
  simp only [updateDomAttributes, List.filterMap_nil, List.nil_append, getProp]
  induction p with
  | nil => simp
  | cons kv rest ih =>
    simp only [List.filterMap_cons, List.map_cons]
    rw [if_neg (by simp)]
    simp only [List.cons.injEq, true_and]
    simpa using ih

/-- Setting all attributes of a well-formed props object on a freshly created
(attribute-less) element reproduces the props object. -/
theorem freshAttrs_eq (p : Attrs) (h : noDupKeys p = true) :
    applyAttrOps [] (updateDomAttributes [] p) = p := by
  rw [updateDomAttributes_empty_old]
  have := applyAttrOps_sets_fresh p [] h (by intro kv _; simp [keyMem])
  simpa using this

mutual
theorem build_count : (v : VNode) → (n : Nat) → dCount (renderBuild v n).1 = vCount v
  | .text _, _ => by simp [renderBuild, dCount, vCount]
  | .elem t p cs, n => by
      simp only [renderBuild, dCount, vCount]
      rw [build_count_list cs (n + 1)]
theorem build_count_list : (cs : List VNode) → (n : Nat) →
    dCountList (renderBuildList cs n).1 = vCountList cs
  | [], _ => by simp [renderBuildList, dCountList, vCountList]
  | c :: cs, n => by
      simp only [renderBuildList, dCountList, vCountList]
      rw [build_count c n, build_count_list cs (renderBuild c n).2]
end

mutual
theorem build_matches : (v : VNode) → (n : Nat) → wfV v = true →
    matchesB v (renderBuild v n).1 = true
  | .text _, _, _ => by simp [renderBuild, matchesB]
  | .elem t p cs, n, h => by
      simp only [wfV, Bool.and_eq_true] at h
      simp [renderBuild, matchesB, freshAttrs_eq p h.1, build_matches_list cs (n + 1) h.2]
theorem build_matches_list : (cs : List VNode) → (n : Nat) → wfVList cs = true →
    matchesListB cs (renderBuildList cs n).1 = true
  | [], _, _ => by simp [renderBuildList, matchesListB]
  | c :: cs, n, h => by
      simp only [wfVList, Bool.and_eq_true] at h
      simp only [renderBuildList, matchesListB, Bool.and_eq_true]
      exact ⟨build_matches c n h.1, build_matches_list cs (renderBuild c n).2 h.2⟩
end

mutual
theorem build_shape : (v : VNode) → (n : Nat) → stripId (renderBuild v n).1 = buildShape v
  | .text _, _ => by simp [renderBuild, stripId, buildShape]
  | .elem t p cs, n => by
      simp only [renderBuild, stripId, buildShape]
      rw [build_shape_list cs (n + 1)]
theorem build_shape_list : (cs : List VNode) → (n : Nat) →
    stripIdList (renderBuildList cs n).1 = buildShapeList cs
  | [], _ => by simp [renderBuildList, stripIdList, buildShapeList]
  | c :: cs, n => by
      simp only [renderBuildList, stripIdList, buildShapeList]
      rw [build_shape c n, build_shape_list cs (renderBuild c n).2]
end

theorem except_map_ok {α β γ : Type} (f : α → β) (x : Except γ α) (b : β)
    (h : Except.map f x = .ok b) : ∃ a, x = .ok a ∧ b = f a := by
  cases x with
  | error e => simp [Except.map] at h
  | ok a =>
    simp only [Except.map, Except.ok.injEq] at h
    exact ⟨a, rfl, h.symm⟩

theorem diffChildren_all_eq : (cs : List VNode) → (pcs : List VNode) → (i : Nat) →
    (dom : DNode) → (ctr : Nat) → (∀ j, j < cs.length → pcs[i + j]? = cs[j]?) →
    diffChildren pcs cs i dom ctr = .ok (dom, ctr)
  | [], _, _, _, _, _ => by simp [diffChildren]
  | c :: rest, pcs, i, dom, ctr, h => by
      have h0 : pcs[i]? = some c := by
        have := h 0 (by simp)
        simpa using this
      have hbeq : (pcs[i]? == some c) = true := by
        rw [h0]; simp
      rw [diffChildren, if_pos hbeq]
      refine diffChildren_all_eq rest pcs (i + 1) dom ctr ?_
      intro j hj
      have := h (j + 1) (by simpa using Nat.succ_lt_succ hj)
      simpa [Nat.add_assoc, Nat.add_comm 1 j] using this

theorem diffV_preserves (prev : Option VNode) (c : VNode) (did : Nat) (dtag : String)
    (dattrs : Attrs) (dkids : List DNode) (ctr : Nat) (dom2 : DNode) (n2 : Nat)
    (h : diffAndUpdateV prev c (.delem did dtag dattrs dkids) ctr = .ok (dom2, n2)) :
    ∃ kids2, dom2 = .delem did dtag dattrs kids2 ∧ kids2.length = dkids.length ∧
      kids2.drop 1 = dkids.drop 1 := by
  unfold diffAndUpdateV at h
  by_cases hg : (isTextOpt prev || isTextV c) = true
  · rw [if_pos hg] at h
    by_cases he : (prev == some c) = true
    · rw [if_pos he] at h
      cases h
      exact ⟨dkids, rfl, rfl, rfl⟩
    · rw [if_neg he] at h
      cases dkids with
      | nil => simp [replaceFirstChild, Except.map] at h
      | cons d0 rest =>
        simp only [replaceFirstChild, Except.map] at h
        cases h
        exact ⟨_, rfl, rfl, rfl⟩
  · rw [if_neg hg] at h
    cases prev with
    | none => cases c <;> simp at h
    | some p =>
      cases p with
      | text s => cases c <;> simp at h
      | elem pt pp pcs =>
        cases c with
        | text s2 => simp [isTextOpt, isTextV] at hg
        | elem ct cp ccs =>
          dsimp only at h
          by_cases ht : (pt == ct) = true
          · rw [if_pos ht] at h
            cases dkids with
            | nil => simp at h
            | cons d0 rest =>
              cases d0 with
              | dtext i2 s2 => simp at h
              | delem did2 dtag2 dattrs2 dkids2 =>
                dsimp only at h
                obtain ⟨r, hr, hb⟩ := except_map_ok _ _ _ h
                cases hb
                exact ⟨r.1 :: rest, rfl, by simp, by simp⟩
          · rw [if_neg ht] at h
            simp at h

theorem diffChildren_preserves : (cs : List VNode) → (pcs : List VNode) → (i : Nat) →
    (did : Nat) → (dtag : String) → (dattrs : Attrs) → (dkids : List DNode) →
    (ctr : Nat) → (dom2 : DNode) → (n2 : Nat) →
    diffChildren pcs cs i (.delem did dtag dattrs dkids) ctr = .ok (dom2, n2) →
    ∃ kids2, dom2 = .delem did dtag dattrs kids2 ∧ kids2.length = dkids.length ∧
      kids2.drop 1 = dkids.drop 1
  | [], pcs, i, did, dtag, dattrs, dkids, ctr, dom2, n2, h => by
      rw [diffChildren] at h
      cases h
      exact ⟨dkids, rfl, rfl, rfl⟩
  | c :: rest, pcs, i, did, dtag, dattrs, dkids, ctr, dom2, n2, h => by
      rw [diffChildren] at h
      by_cases hb : (pcs[i]? == some c) = true
      · rw [if_pos hb] at h
        exact diffChildren_preserves rest pcs (i + 1) did dtag dattrs dkids ctr dom2 n2 h
      · rw [if_neg hb] at h
        cases hd : diffAndUpdateV pcs[i]? c (.delem did dtag dattrs dkids) ctr with
        | error e => rw [hd] at h; simp at h
        | ok r =>
          rw [hd] at h
          dsimp only at h
          obtain ⟨kidsA, hA, hAl, hAd⟩ :=
            diffV_preserves pcs[i]? c did dtag dattrs dkids ctr r.1 r.2 (by rw [hd])
          rw [hA] at h
          obtain ⟨kidsB, hB, hBl, hBd⟩ :=
            diffChildren_preserves rest pcs (i + 1) did dtag dattrs kidsA r.2 dom2 n2 h
          exact ⟨kidsB, hB, by rw [hBl, hAl], by rw [hBd, hAd]⟩

theorem removes_mem (oldP newP : Attrs) (x : AttrOp) :
    x ∈ oldP.filterMap (fun kv =>
        if (getProp newP kv.1).isSome then none else some (AttrOp.remove kv.1))
    ↔ ∃ kv ∈ oldP, (getProp newP kv.1).isSome = false ∧ x = AttrOp.remove kv.1 := by
  rw [List.mem_filterMap]
  constructor
  · rintro ⟨kv, hkv, hf⟩
    by_cases hs : (getProp newP kv.1).isSome = true
    · rw [if_pos hs] at hf
      cases hf
    · rw [if_neg hs] at hf
      refine ⟨kv, hkv, by simpa using hs, ?_⟩
      cases hf
      rfl
  · rintro ⟨kv, hkv, hs, rfl⟩
    exact ⟨kv, hkv, by rw [if_neg (by simp [hs])]⟩

theorem sets_mem (oldP newP : Attrs) (x : AttrOp) :
    x ∈ newP.filterMap (fun kv =>
        if getProp oldP kv.1 = some kv.2 then none else some (AttrOp.set kv.1 kv.2))
    ↔ ∃ kv ∈ newP, getProp oldP kv.1 ≠ some kv.2 ∧ x = AttrOp.set kv.1 kv.2 := by
  rw [List.mem_filterMap]
  constructor
  · rintro ⟨kv, hkv, hf⟩
    by_cases hs : getProp oldP kv.1 = some kv.2
    · rw [if_pos hs] at hf
      cases hf
    · rw [if_neg hs] at hf
      refine ⟨kv, hkv, hs, ?_⟩
      cases hf
      rfl
  · rintro ⟨kv, hkv, hs, rfl⟩
    exact ⟨kv, hkv, by rw [if_neg hs]⟩

/-- C2: `updateDomAttributes` removes exactly the names present in the old
props and absent from the new, sets exactly the new pairs whose value differs
from or is absent in the old, writes nothing for an unchanged pair, and on
old = (a:"1", b:"2"), new = (b:"2", c:"3") it removes `a`, leaves `b`
untouched, adds `c`, and an element mounted with the old props ends with
exactly (b:"2", c:"3"). -/
theorem claim_C2_attr_diff (oldP newP : Attrs) (k v : String) :
    (AttrOp.remove k ∈ updateDomAttributes oldP newP
      ↔ (getProp oldP k).isSome = true ∧ getProp newP k = none)
    ∧ (AttrOp.set k v ∈ updateDomAttributes oldP newP
      ↔ (k, v) ∈ newP ∧ getProp oldP k ≠ some v)
    ∧ (getProp oldP k = some v → AttrOp.set k v ∉ updateDomAttributes oldP newP)
    ∧ updateDomAttributes [("a","1"),("b","2")] [("b","2"),("c","3")]
        = [AttrOp.remove "a", AttrOp.set "c" "3"]
    ∧ applyAttrOps [("a","1"),("b","2")]
        (updateDomAttributes [("a","1"),("b","2")] [("b","2"),("c","3")])
        = [("b","2"),("c","3")] := by
  refine ⟨?_, ?_, ?_, rfl, rfl⟩
  · rw [updateDomAttributes, List.mem_append, removes_mem, sets_mem]
    constructor
    · rintro (⟨kv, hkv, hs, heq⟩ | ⟨kv, hkv, hs, heq⟩)
      · cases heq
        exact ⟨(getProp_isSome_iff oldP kv.1).mpr ⟨kv.2, by simpa using hkv⟩,
          by simpa [Option.not_isSome_iff_eq_none] using hs⟩
      · cases heq
    · rintro ⟨hsome, hnone⟩
      obtain ⟨v2, hv2⟩ := (getProp_isSome_iff oldP k).mp hsome
      exact Or.inl ⟨(k, v2), hv2, by simp [hnone], rfl⟩
  · rw [updateDomAttributes, List.mem_append, removes_mem, sets_mem]
    constructor
    · rintro (⟨kv, hkv, hs, heq⟩ | ⟨kv, hkv, hs, heq⟩)
      · cases heq
      · cases heq
        exact ⟨by simpa using hkv, hs⟩
    · rintro ⟨hmem, hne⟩
      exact Or.inr ⟨(k, v), hmem, hne, rfl⟩
  · intro hunchanged hmem
    rw [updateDomAttributes, List.mem_append, removes_mem, sets_mem] at hmem
    rcases hmem with ⟨kv, hkv, hs, heq⟩ | ⟨kv, hkv, hs, heq⟩
    · cases heq
    · cases heq
      exact hs hunchanged

/-- C2 witness: for the concrete pair old = (a:"1", b:"2"), new = (b:"2", c:"3"),
the unchanged pair b:"2" is never written. -/
theorem claim_C2_attr_diff_witness :
    AttrOp.set "b" "2" ∉ updateDomAttributes [("a","1"),("b","2")] [("b","2"),("c","3")] :=
  (claim_C2_attr_diff [("a","1"),("b","2")] [("b","2"),("c","3")] "b" "2").2.2.1 (by decide)

/-- C1: mounting a well-formed VirtualNode tree into an element container
appends exactly one subtree after the existing children; that subtree has
exactly as many live nodes as the virtual tree has virtual nodes, and matches
it node for node (tag names, text values, attribute lists, child order). -/
theorem claim_C1_mount_appends_matching (v : VNode) (hwf : wfV v = true)
    (cid : Nat) (ctag : String) (cattrs : Attrs) (ckids : List DNode) (ctr : Nat) :
    renderVDomToDom v (some (.delem cid ctag cattrs ckids)) ctr
      = .ok (some (.delem cid ctag cattrs (ckids ++ [(renderBuild v ctr).1])),
             (renderBuild v ctr).2)
    ∧ dCount (renderBuild v ctr).1 = vCount v
    ∧ matchesB v (renderBuild v ctr).1 = true :=
  ⟨rfl, build_count v ctr, build_matches v ctr hwf⟩

def vWitness : VNode := .elem "div" [("id","x")] [.text "hi", .elem "span" [("z","9")] []]

/-- C1 witness: a concrete two-level tree mounted into a non-empty container. -/
theorem claim_C1_mount_witness :
    renderVDomToDom vWitness (some (.delem 7 "root" [("r","1")] [.dtext 8 "pre"])) 0
      = .ok (some (.delem 7 "root" [("r","1")] ([.dtext 8 "pre"] ++ [(renderBuild vWitness 0).1])),
             (renderBuild vWitness 0).2)
    ∧ dCount (renderBuild vWitness 0).1 = vCount vWitness
    ∧ matchesB vWitness (renderBuild vWitness 0).1 = true :=
  claim_C1_mount_appends_matching vWitness (by decide) 7 "root" [("r","1")] [.dtext 8 "pre"] 0

/-- C3: with previous = element(tag="div") mounted as the single child and
current = element(tag="span"), the tag-change branch of `diffAndUpdate` calls
`renderVDomToDom(currentVNode)` — which returns no value — and then
`replaceChild(undefined, firstChild)`, a TypeError: the container's child is
never replaced by the freshly built "span" subtree the spec intends. -/
theorem claim_C3_tag_change_faults :
    diffAndUpdate (some (.elem "div" [("id","x")] []))
        (some (.elem "span" [] []))
        (.delem 0 "root" [] [.delem 1 "div" [("id","x")] []]) 10
      = .error .typeError := rfl

/-- C6: diff-and-patch with current = null empties the container's children
and changes nothing else (identity, tag and attributes are untouched),
whatever the container held and whatever previous was. -/
theorem claim_C6_null_clears (prev : Option VNode) (cid : Nat) (ctag : String)
    (cattrs : Attrs) (ckids : List DNode) (ctr : Nat) :
    diffAndUpdate prev none (.delem cid ctag cattrs ckids) ctr
      = .ok (.delem cid ctag cattrs [], ctr) := rfl

/-- C10: mounting with an absent container completes without error: the live
subtree is still built (the identity counter advances past the whole build)
but nothing is appended anywhere and no node is returned. -/
theorem claim_C10_absent_container (v : VNode) (ctr : Nat) :
    renderVDomToDom v none ctr = .ok (none, (renderBuild v ctr).2) := rfl

/-- C7: re-rendering is idempotent with respect to container content: a second
`reRenderElement` with the same virtual tree leaves the container with a
single child of the same shape (equal up to node identities) as after the
first call, because each call first removes every existing child. -/
theorem claim_C7_rerender_idempotent (v : VNode) (cid : Nat) (ctag : String)
    (cattrs : Attrs) (ckids : List DNode) (ctr : Nat) :
    ∃ d1 n1 d2 n2,
      reRenderElement v (some (.delem cid ctag cattrs ckids)) ctr
        = .ok (some (.delem cid ctag cattrs [d1]), n1)
      ∧ reRenderElement v (some (.delem cid ctag cattrs [d1])) n1
        = .ok (some (.delem cid ctag cattrs [d2]), n2)
      ∧ stripId d2 = stripId d1 :=
  ⟨(renderBuild v ctr).1, (renderBuild v ctr).2,
   (renderBuild v (renderBuild v ctr).2).1, (renderBuild v (renderBuild v ctr).2).2,
   rfl, rfl, by rw [build_shape, build_shape]⟩

/-- C8 counterexample: `createVDomNode` applies no defensive default — with an
absent attributes argument the stored attribute mapping is absent
(`undefined`), not the empty mapping the claim asserts. -/
theorem claim_C8_counterexample :
    (createVDomNode "div" none ([] : List VNode)).props ≠ some [] := by decide

/-- C8 amended: `createVDomNode` is a pure constructor whose returned node's
type, props and children fields equal the supplied arguments verbatim; an
absent attributes argument stays absent rather than defaulting to the empty
mapping. -/
theorem claim_C8_amended {γ : Type} (t : String) (p : Option Attrs) (c : γ) :
    (createVDomNode t p c).type = t ∧ (createVDomNode t p c).props = p
    ∧ (createVDomNode t p c).children = c :=
  ⟨rfl, rfl, rfl⟩

/-- C4: with text-valued previous mounted as the single child, diff-and-patch
replaces the container's first child by a freshly created text node carrying
current's value when the values differ, and when they are equal it is a no-op
that keeps the very same live node (same identity) in place. -/
theorem claim_C4_text_patch (s t2 : String) (cid : Nat) (ctag : String)
    (cattrs : Attrs) (tid ctr : Nat) :
    (s ≠ t2 →
      diffAndUpdate (some (.text s)) (some (.text t2))
          (.delem cid ctag cattrs [.dtext tid s]) ctr
        = .ok (.delem cid ctag cattrs [.dtext ctr t2], ctr + 1))
    ∧ diffAndUpdate (some (.text s)) (some (.text s))
          (.delem cid ctag cattrs [.dtext tid s]) ctr
        = .ok (.delem cid ctag cattrs [.dtext tid s], ctr) := by
  constructor
  · intro hne
    have hbeq : ((some (VNode.text s) : Option VNode) == some (VNode.text t2)) = false := by
      simp only [beq_eq_false_iff_ne, ne_eq, Option.some.injEq, VNode.text.injEq]
      exact hne
    rw [diffAndUpdate, diffAndUpdateV, if_pos (by simp [isTextOpt, isTextV]), hbeq]
    · simp [replaceFirstChild, Except.map, textValue]
    · intro pt pp pcs ct cp ccs h1 h2
      exact VNode.noConfusion h2
  · have hbeq : ((some (VNode.text s) : Option VNode) == some (VNode.text s)) = true := by
      simp
    rw [diffAndUpdate, diffAndUpdateV, if_pos (by simp [isTextOpt, isTextV]), hbeq]
    · simp
    · intro pt pp pcs ct cp ccs h1 h2
      exact VNode.noConfusion h2

/-- C4 witness: previous = "hello", current = "world" under a container whose
single child is the live text node "hello". -/
theorem claim_C4_text_patch_witness :
    diffAndUpdate (some (.text "hello")) (some (.text "world"))
        (.delem 0 "c" [] [.dtext 1 "hello"]) 5
      = .ok (.delem 0 "c" [] [.dtext 5 "world"], 6) :=
  (claim_C4_text_patch "hello" "world" 0 "c" [] 1 5).1 (by decide)

/-- C5 counterexample: previous = div[text "a", text "b"], current =
div[text "a", text "c"] under a container holding the mounted previous. The
child at index 0 is identical in both trees, yet the patch overwrites its
live node (the text node id 2 "a" becomes a fresh text node "c"), because the
recursive call for the differing index 1 also targets the resolved element's
first child. -/
theorem claim_C5_counterexample :
    diffAndUpdate (some (.elem "div" [] [.text "a", .text "b"]))
        (some (.elem "div" [] [.text "a", .text "c"]))
        (.delem 0 "root" [] [.delem 1 "div" [] [.dtext 2 "a", .dtext 3 "b"]]) 100
      = .ok (.delem 0 "root" [] [.delem 1 "div" [] [.dtext 100 "c", .dtext 3 "b"]], 101)
    ∧ DNode.dtext 100 "c" ≠ DNode.dtext 2 "a" :=
  ⟨rfl, by decide⟩

/-- C5 amended: the children loop recurses exactly at the indices of current's
children that differ from previous's child at the same index (an identical
index is skipped outright), it never visits indices beyond current's children,
and after a same-tag patch the resolved element keeps its identity, tag and
attribute handling confined to itself while its children other than the first
(in particular trailing children present only in previous) are never removed
or modified; when every index matches, its children are left entirely
unchanged. Live subtrees at identical indices are, however, not protected in
general: every recursive call targets the resolved element's first child (see
the counterexample). -/
theorem claim_C5_amended :
    (∀ (pcs : List VNode) (c : VNode) (rest : List VNode) (i : Nat)
        (dom : DNode) (ctr : Nat),
      pcs[i]? = some c →
      diffChildren pcs (c :: rest) i dom ctr = diffChildren pcs rest (i + 1) dom ctr)
    ∧ (∀ (tg : String) (pp : Attrs) (pcs : List VNode) (cp : Attrs) (ccs : List VNode)
        (pid : Nat) (ptag : String) (pattrs : Attrs) (did : Nat) (dtag : String)
        (dattrs : Attrs) (dkids : List DNode) (rest : List DNode) (ctr : Nat),
      (∀ j, j < ccs.length → pcs[j]? = ccs[j]?) →
      diffAndUpdate (some (.elem tg pp pcs)) (some (.elem tg cp ccs))
          (.delem pid ptag pattrs (DNode.delem did dtag dattrs dkids :: rest)) ctr
        = .ok (.delem pid ptag pattrs
            (DNode.delem did dtag (applyAttrOps dattrs (updateAttributes pp cp)) dkids
              :: rest), ctr))
    ∧ (∀ (cs pcs : List VNode) (i : Nat) (did : Nat) (dtag : String) (dattrs : Attrs)
        (dkids : List DNode) (ctr : Nat) (dom2 : DNode) (n2 : Nat),
      diffChildren pcs cs i (.delem did dtag dattrs dkids) ctr = .ok (dom2, n2) →
      ∃ kids2, dom2 = .delem did dtag dattrs kids2 ∧ kids2.length = dkids.length ∧
        kids2.drop 1 = dkids.drop 1) := by
  refine ⟨?_, ?_, ?_⟩
  · intro pcs c rest i dom ctr h
    rw [diffChildren, if_pos (by rw [h]; simp)]
  · intro tg pp pcs cp ccs pid ptag pattrs did dtag dattrs dkids rest ctr hall
    have hloop : diffChildren pcs ccs 0
        (DNode.delem did dtag (applyAttrOps dattrs (updateAttributes pp cp)) dkids) ctr
        = .ok (DNode.delem did dtag (applyAttrOps dattrs (updateAttributes pp cp)) dkids, ctr) := by
      refine diffChildren_all_eq ccs pcs 0 _ ctr ?_
      intro j hj
      simpa using hall j hj
    rw [diffAndUpdate, diffAndUpdateV, if_neg (by simp [isTextOpt, isTextV])]
    dsimp only
    rw [if_pos (by simp)]
    rw [hloop]
    rfl
  · exact fun cs pcs i did dtag dattrs dkids ctr dom2 n2 h =>
      diffChildren_preserves cs pcs i did dtag dattrs dkids ctr dom2 n2 h

/-- C5 amended witness: concrete instances of the three parts — an identical
index is skipped; an all-identical children list leaves the resolved
element's children unchanged; an ok result of the children loop preserves the
container's identity, tag, attributes and all children past the first. -/
theorem claim_C5_amended_witness :
    diffChildren [VNode.text "a"] [VNode.text "a"] 0 (.delem 1 "d" [] []) 5
      = diffChildren [VNode.text "a"] [] 1 (.delem 1 "d" [] []) 5
    ∧ diffAndUpdate (some (.elem "div" [("k","v")] [.text "a"]))
        (some (.elem "div" [] [.text "a"]))
        (.delem 0 "root" [] [.delem 1 "div" [("k","v")] [.dtext 2 "a"], .dtext 3 "sib"]) 9
      = .ok (.delem 0 "root" []
          [.delem 1 "div" (applyAttrOps [("k","v")] (updateAttributes [("k","v")] []))
            [.dtext 2 "a"], .dtext 3 "sib"], 9)
    ∧ ∃ kids2, (DNode.delem 4 "e" [("a","b")] [.dtext 5 "x"] : DNode)
        = .delem 4 "e" [("a","b")] kids2
        ∧ kids2.length = [DNode.dtext 5 "x"].length
        ∧ kids2.drop 1 = [DNode.dtext 5 "x"].drop 1 :=
  ⟨claim_C5_amended.1 [VNode.text "a"] (VNode.text "a") [] 0 (.delem 1 "d" [] []) 5 (by decide),
   claim_C5_amended.2.1 "div" [("k","v")] [.text "a"] [] [.text "a"] 0 "root" []
     1 "div" [("k","v")] [.dtext 2 "a"] [.dtext 3 "sib"] 9 (by decide),
   claim_C5_amended.2.2 [] [] 0 4 "e" [("a","b")] [.dtext 5 "x"] 9
     (.delem 4 "e" [("a","b")] [.dtext 5 "x"]) 9 rfl⟩
